import Mathlib

/-!
Shallow embedding of the configuration-lifecycle and fact/view-parsing core of
the go-junos library (junos.go, views.go).

Go strings are modelled as `List Char`; Go's multiple return values
`(T, error)` as pairs with an `Option Err` component, or as `Except Err T`
when a zero result accompanies every error.  External collaborators
(the netconf transport and `xml.Unmarshal`) are passed in as oracle
parameters: `Except Err NetconfReply` stands for the result of a
`Session.Exec` call, and each decode target gets a parser oracle
`List Char → Except Err T`.  A Go runtime panic (index out of range on a
slice, or indexing the nil result of `FindStringSubmatch`) is modelled as
the distinguished error `Err.crash`.
-/

set_option linter.unusedVariables false
set_option linter.dupNamespace false

namespace Junos

/-- Go strings, as lists of characters. -/
abbrev Str := List Char

/-- Errors: `goError m` models `errors.New(m)` (and any other Go `error`
value carrying message `m`); `crash` models a runtime panic. -/
inductive Err where
  | goError (msg : Str)
  | crash
  deriving DecidableEq, Repr

/-- One `<rpc-error>` entry of a netconf reply (only the `Message` field is
read by the library). -/
structure RPCError where
  Message : Str
  deriving DecidableEq, Repr

/-- A netconf `RPCReply`: the error list and the raw reply body
(`reply.Errors`, `reply.Data`). -/
structure NetconfReply where
  Errors : List RPCError
  Data : Str
  deriving DecidableEq, Repr

/-- `isPre pat s` : `pat` is a prefix of `s` (Boolean). -/
def isPre : Str → Str → Bool
  | [], _ => true
  | _ :: _, [] => false
  | p :: ps, c :: cs => p = c && isPre ps cs

/-- `strings.Contains s pat` : `pat` occurs as a contiguous substring of
`s`. -/
def hasSub (pat : Str) : Str → Bool
  | [] => pat.isEmpty
  | c :: rest => isPre pat (c :: rest) || hasSub pat rest

/-- `fmt.Sprintf` on a template with a single `%s` verb: the first `%s` is
replaced by the argument, the rest of the template is kept verbatim. -/
def subst1 : Str → Str → Str
  | [], _ => []
  | '%' :: 's' :: rest, arg => arg ++ rest
  | c :: rest, arg => c :: subst1 rest arg

/-- `fmt.Sprintf` on a template with a single `%d` verb. -/
def subst1d : Str → Int → Str
  | [], _ => []
  | '%' :: 'd' :: rest, n => (toString n).toList ++ rest
  | c :: rest, n => c :: subst1d rest n

/-! ### Version extraction (the regex `^.*\[(.*)\]` in NewSession)

Go's `regexp` gives the pattern `^.*\[(.*)\]` leftmost-first (backtracking)
semantics in which `.` does not match a newline.  Concretely, on input `s`:
the match is confined to the first line of `s`; the greedy `(.*)\]` ends the
match at the last `]` of that line, and the greedy leading `.*` puts the `[`
of the match at the last `[` occurring before that `]`.  Group 1 is the text
strictly between those two brackets.  `FindStringSubmatch` returns nil when
there is no such pair; the subsequent `version[1]` index then panics. -/

/-- The text before the last `']'` of the list, or `none` if there is no
`']'`. -/
def beforeLastClose : Str → Option Str
  | [] => none
  | c :: rest =>
    match beforeLastClose rest with
    | some r => some (c :: r)
    | none => if c = ']' then some [] else none

/-- The text after the last `'['` of the list, or `none` if there is no
`'['`. -/
def afterLastOpen : Str → Option Str
  | [] => none
  | c :: rest =>
    match afterLastOpen rest with
    | some r => some r
    | none => if c = '[' then some rest else none

/-- Group 1 of `regexp.MustCompile("^.*\\[(.*)\\]").FindStringSubmatch`:
restrict to the first line, take what stands between the last `'['`
preceding the last `']'` and that `']'`. -/
def reFindVersion (s : Str) : Option Str :=
  (beforeLastClose (s.takeWhile (· ≠ '\n'))).bind afterLastOpen

/-! ### Session establishment (NewSession, junos.go) -/

/-- Decode target `versionPackageInfo` (`package-information` blocks). -/
structure VersionPackageInfo where
  PackageName : List Str
  SoftwareVersion : List Str
  deriving DecidableEq, Repr

/-- Decode target `versionRouteEngine` (`software-information` block). -/
structure VersionRouteEngine where
  Hostname : Str
  Platform : Str
  PackageInfo : List VersionPackageInfo
  deriving DecidableEq, Repr

/-- Decode target `versionRouteEngines` (the multi-engine schema: one
`software-information` block per `multi-routing-engine-item`). -/
structure VersionRouteEngines where
  RE : List VersionRouteEngine
  deriving DecidableEq, Repr

/-- A `routingEngine` fact: upper-cased model and extracted version. -/
structure RoutingEngine where
  Model : Str
  Version : Str
  deriving DecidableEq, Repr

/-- The session state built by `NewSession` (transport handle omitted). -/
structure Junos where
  Hostname : Str
  RouteEngines : Nat
  Platform : List RoutingEngine
  deriving DecidableEq, Repr

/-- The discriminator marker checked by `strings.Contains(reply.Data, ...)`. -/
def markerStr : Str := "multi-routing-engine-results".toList

/-- The loop body of NewSession for one routing-engine block:
`version := rex.FindStringSubmatch(facts.RE[i].PackageInfo[0].SoftwareVersion[0])`
(each index on an empty slice panics, as does `version[1]` when the regex
found no match), `model := strings.ToUpper(...)`, then the
`routingEngine{Model: model, Version: version[1]}` value.  The single-engine
branch runs the same three lines on its one block. -/
def buildRE (re : VersionRouteEngine) : Except Err RoutingEngine :=
  match re.PackageInfo with
  | [] => .error .crash
  | pi0 :: _ =>
    match pi0.SoftwareVersion with
    | [] => .error .crash
    | sv0 :: _ =>
      match reFindVersion sv0 with
      | none => .error .crash
      | some v => .ok { Model := re.Platform.map Char.toUpper, Version := v }

/-- The `for i := 0; i < numRE; i++` loop over `facts.RE`: a panic in any
iteration aborts the whole construction. -/
def mapExc (f : α → Except Err β) : List α → Except Err (List β)
  | [] => .ok []
  | a :: l =>
    match f a with
    | .error e => .error e
    | .ok b =>
      match mapExc f l with
      | .error e => .error e
      | .ok bs => .ok (b :: bs)

/-- NewSession after the `get-software-information` reply has arrived
(junos.go lines 1040-1089): surface the first rpc-error if any; otherwise
peek for the multi-routing-engine marker and decode with the multi-engine
schema (`pm`), taking the hostname from block 0 and one fact per block, or
with the single-engine schema (`ps`), producing exactly one fact. -/
def newSessionFromReply (pm : Str → Except Err VersionRouteEngines)
    (ps : Str → Except Err VersionRouteEngine)
    (reply : NetconfReply) : Except Err Junos :=
  match reply.Errors with
  | m :: _ => .error (.goError m.Message)
  | [] =>
    if hasSub markerStr reply.Data then
      match pm reply.Data with
      | .error e => .error e
      | .ok facts =>
        match facts.RE with
        | [] => .error .crash
        | first :: _ =>
          match mapExc buildRE facts.RE with
          | .error e => .error e
          | .ok res =>
            .ok { Hostname := first.Hostname, RouteEngines := facts.RE.length,
                  Platform := res }
    else
      match ps reply.Data with
      | .error e => .error e
      | .ok facts =>
        match buildRE facts with
        | .error e => .error e
        | .ok re =>
          .ok { Hostname := facts.Hostname, RouteEngines := 1, Platform := [re] }

/-- NewSession including the `s.Exec(rpcVersion)` transport step. -/
def newSessionRun (pm : Str → Except Err VersionRouteEngines)
    (ps : Str → Except Err VersionRouteEngine)
    (execRes : Except Err NetconfReply) : Except Err Junos :=
  match execRes with
  | .error e => .error e
  | .ok reply => newSessionFromReply pm ps reply

/-! ### RPC templates (junos.go, second snapshot: wrapped in `<rpc>`) -/

def rpcCommand : Str := "<rpc><command format=\"text\">%s</command></rpc>".toList
def rpcCommandXML : Str := "<rpc><command format=\"xml\">%s</command></rpc>".toList
def rpcCommit : Str := "<rpc><commit-configuration/></rpc>".toList
def rpcCommitAt : Str :=
  "<rpc><commit-configuration><at-time>%s</at-time></commit-configuration></rpc>".toList
def rpcCommitCheck : Str :=
  "<rpc><commit-configuration><check/></commit-configuration></rpc>".toList
def rpcCommitConfirm : Str :=
  "<rpc><commit-configuration><confirmed/><confirm-timeout>%d</confirm-timeout></commit-configuration></rpc>".toList
def rpcConfigFileSet : Str :=
  "<rpc><load-configuration action=\"set\" format=\"text\"><configuration-set>%s</configuration-set></load-configuration></rpc>".toList
def rpcConfigFileText : Str :=
  "<rpc><load-configuration format=\"text\"><configuration-text>%s</configuration-text></load-configuration></rpc>".toList
def rpcConfigFileXML : Str :=
  "<rpc><load-configuration format=\"xml\"><configuration>%s</configuration></load-configuration></rpc>".toList
def rpcConfigURLSet : Str :=
  "<rpc><load-configuration action=\"set\" format=\"text\" url=\"%s\"/></rpc>".toList
def rpcConfigURLText : Str :=
  "<rpc><load-configuration format=\"text\" url=\"%s\"/></rpc>".toList
def rpcConfigURLXML : Str :=
  "<rpc><load-configuration format=\"xml\" url=\"%s\"/></rpc>".toList
def rpcConfigStringSet : Str := rpcConfigFileSet
def rpcConfigStringText : Str := rpcConfigFileText
def rpcConfigStringXML : Str := rpcConfigFileXML
def rpcGetRollbackCompare : Str :=
  "<rpc><get-rollback-information><rollback>0</rollback><compare>%d</compare><format>text</format></get-rollback-information></rpc>".toList
def rpcLock : Str := "<rpc><lock><target><candidate/></target></lock></rpc>".toList
def rpcRescueDelete : Str := "<rpc><request-delete-rescue-configuration/></rpc>".toList
def rpcRescueSave : Str := "<rpc><request-save-rescue-configuration/></rpc>".toList
def rpcUnlock : Str := "<rpc><unlock><target><candidate/></target></unlock></rpc>".toList

/-! ### Shared reply handling -/

/-- `if reply.Errors != nil { for _, m := range reply.Errors { return errors.New(m.Message) } }`:
the loop body returns unconditionally, so only the first entry is ever
surfaced. -/
def firstErrOpt (reply : NetconfReply) : Option Err :=
  match reply.Errors with
  | m :: _ => some (.goError m.Message)
  | [] => none

/-- Operations whose body is only exec + first-rpc-error check
(Lock, Unlock, Rescue, Reboot). -/
def simpleHandle (execRes : Except Err NetconfReply) : Option Err :=
  match execRes with
  | .error e => some e
  | .ok reply => firstErrOpt reply

/-- Each operation is modelled as the pair (rendered request, returned
error/result): the first component is the wire command handed to
`Session.Exec`. -/
def LockRun (execRes : Except Err NetconfReply) : Str × Option Err :=
  (rpcLock, simpleHandle execRes)

def UnlockRun (execRes : Except Err NetconfReply) : Str × Option Err :=
  (rpcUnlock, simpleHandle execRes)

/-- Rescue's command selection (junos.go lines 1092-1097): the command
starts as the save RPC and is replaced only when the action is exactly
"delete"; there is no validation of other action values. -/
def rescueCommand (action : Str) : Str :=
  if action = "delete".toList then rpcRescueDelete else rpcRescueSave

def RescueRun (action : Str) (execRes : Except Err NetconfReply) :
    Str × Option Err :=
  (rescueCommand action, simpleHandle execRes)

/-! ### The commit family -/

/-- One `rpc-error` inside `commit-results`. -/
structure CommitError where
  Path : Str
  Element : Str
  Message : Str
  deriving DecidableEq, Repr

/-- Decode target `commitResults`. -/
structure CommitResults where
  Errors : List CommitError
  deriving DecidableEq, Repr

/-- `strings.Trim(s, "[\r\n]")`: strip leading and trailing characters
drawn from the cutset `{'[', '\r', '\n', ']'}`. -/
def goTrim (s : Str) : Str :=
  let isCut : Char → Bool := fun c => c = '[' || c = '\r' || c = '\n' || c = ']'
  ((s.dropWhile isCut).reverse.dropWhile isCut).reverse

/-- `fmt.Sprintf("[%s]\n    %s\nError: %s", Trim(Path), Trim(Element), Trim(Message))`. -/
def commitErrMessage (m : CommitError) : Str :=
  '[' :: goTrim m.Path ++ "]\n    ".toList ++ goTrim m.Element
    ++ "\nError: ".toList ++ goTrim m.Message

/-- The shared body of Commit/CommitAt/CommitCheck/CommitConfirm after the
request command has been rendered: first rpc-error of the reply, else the
first `commit-results` error (formatted), else success.  `pc` is the
`xml.Unmarshal` oracle for the `commitResults` target. -/
def commitHandle (pc : Str → Except Err CommitResults)
    (execRes : Except Err NetconfReply) : Option Err :=
  match execRes with
  | .error e => some e
  | .ok reply =>
    match reply.Errors with
    | m :: _ => some (.goError m.Message)
    | [] =>
      match pc reply.Data with
      | .error e => some e
      | .ok errs =>
        match errs.Errors with
        | m :: _ => some (.goError (commitErrMessage m))
        | [] => none

def CommitRun (pc : Str → Except Err CommitResults)
    (execRes : Except Err NetconfReply) : Str × Option Err :=
  (rpcCommit, commitHandle pc execRes)

def CommitAtRun (pc : Str → Except Err CommitResults) (time : Str)
    (execRes : Except Err NetconfReply) : Str × Option Err :=
  (subst1 rpcCommitAt time, commitHandle pc execRes)

def CommitCheckRun (pc : Str → Except Err CommitResults)
    (execRes : Except Err NetconfReply) : Str × Option Err :=
  (rpcCommitCheck, commitHandle pc execRes)

def CommitConfirmRun (pc : Str → Except Err CommitResults) (delay : Int)
    (execRes : Except Err NetconfReply) : Str × Option Err :=
  (subst1d rpcCommitConfirm delay, commitHandle pc execRes)

/-! ### ConfigDiff -/

/-- Decode target `diffXML` (`configuration-information>configuration-output`). -/
structure DiffXML where
  Config : Str
  deriving DecidableEq, Repr

/-- ConfigDiff (junos.go lines 870-890): render the compare command,
surface the first rpc-error, unmarshal `diffXML` (`pd` oracle) and return
its `Config` payload unconditionally — there is no emptiness or length
check on the payload. -/
def ConfigDiffRun (pd : Str → Except Err DiffXML) (compare : Int)
    (execRes : Except Err NetconfReply) : Str × Except Err Str :=
  (subst1d rpcGetRollbackCompare compare,
   match execRes with
   | .error e => .error e
   | .ok reply =>
     match reply.Errors with
     | m :: _ => .error (.goError m.Message)
     | [] =>
       match pd reply.Data with
       | .error e => .error e
       | .ok rb => .ok rb.Config)

/-! ### Command (operational-mode passthrough) -/

/-- The fixed soft-failure message of `Command`. -/
def errMessage : Str :=
  "No output available. Please check the syntax of your command.".toList

/-- The rendered command of `Command(cmd, format)`: the xml template when
format is exactly "xml", the text template otherwise. -/
def commandRPCOf (cmd format : Str) : Str :=
  if format = "xml".toList then subst1 rpcCommandXML cmd else subst1 rpcCommand cmd

/-- Command (junos.go lines 719-749).  `unwrap` is the `xml.Unmarshal`
oracle for the `commandXML` (`innerxml`) target.  An empty unwrapped body
yields the fixed message together with a nil error. -/
def CommandRun (unwrap : Str → Except Err Str) (cmd format : Str)
    (execRes : Except Err NetconfReply) : Str × Option Err :=
  match execRes with
  | .error e => (errMessage, some e)
  | .ok reply =>
    match reply.Errors with
    | m :: _ => (errMessage, some (.goError m.Message))
    | [] =>
      match unwrap reply.Data with
      | .error e => (errMessage, some e)
      | .ok c => if c = [] then (errMessage, none) else (c, none)

/-! ### Configuration loading (Config / LoadConfig)

`readFile` is the `ioutil.ReadFile` oracle: the file contents, or the error
Go would return for an unreadable path. -/

/-- The `format` strings the `switch` of Config/LoadConfig handles; `other`
is any unhandled format string, for which the command stays the Go zero
value `""` and no file is read. -/
inductive Fmt where
  | set
  | text
  | xml
  | other
  deriving DecidableEq, Repr

/-- The substring whose presence marks a remote URL payload. -/
def tpSub : Str := "tp://".toList

/-- Per-format template triple (url-form, file-form, inline-string-form). -/
def urlTpl : Fmt → Str
  | .set => rpcConfigURLSet
  | .text => rpcConfigURLText
  | .xml => rpcConfigURLXML
  | .other => []

def fileTpl : Fmt → Str
  | .set => rpcConfigFileSet
  | .text => rpcConfigFileText
  | .xml => rpcConfigFileXML
  | .other => []

def stringTpl : Fmt → Str
  | .set => rpcConfigStringSet
  | .text => rpcConfigStringText
  | .xml => rpcConfigStringXML
  | .other => []

/-- The command built by `LoadConfig(path, format, ...)` (junos.go lines
953-986) for a string path.  In every format case the source first assigns
the url-form command when the path contains "tp://", then unconditionally
runs `ioutil.ReadFile(path)`: on failure the function returns the read
error (so the url-form assignment never reaches the device), on success the
command is reassigned to the file-form template over the file contents. -/
def loadConfigCommand (readFile : Str → Except Err Str) (path : Str)
    (format : Fmt) : Except Err Str :=
  match format with
  | .other => .ok []
  | _ =>
    let command := if hasSub tpSub path then subst1 (urlTpl format) path else []
    match readFile path with
    | .error e => .error e
    | .ok data => .ok (subst1 (fileTpl format) data)

/-- The command built by `Config(path, format, ...)` (junos.go lines
358-421) when `path` is a string.  As in LoadConfig the url-form assignment
comes first; it is then overwritten either by the inline-string template
wrapping the path itself (when `ioutil.ReadFile(path)` fails) or by the
file-form template over the contents (when it succeeds). -/
def configCommandStr (readFile : Str → Except Err Str) (path : Str)
    (format : Fmt) : Str :=
  match format with
  | .other => []
  | _ =>
    let command := if hasSub tpSub path then subst1 (urlTpl format) path else []
    match readFile path with
    | .error _ => subst1 (stringTpl format) path
    | .ok data => subst1 (fileTpl format) data

/-- The command built by `Config` when `path` is a `[]string`: the lines
joined by `"\n"` under the inline-string template. -/
def configCommandList (lines : List Str) (format : Fmt) : Str :=
  match format with
  | .other => []
  | _ => subst1 (stringTpl format) (List.intercalate ['\n'] lines)

/-- `j.Commit()` as invoked from within LoadConfig: its own exec plus the
commit-results handling. -/
def commitFromExec (pc : Str → Except Err CommitResults)
    (execCommit : Except Err NetconfReply) : Option Err :=
  commitHandle pc execCommit

/-- LoadConfig (junos.go lines 953-1007): build the command, exec it
(`execLoad`), and — when the commit flag is set — run `j.Commit()`
(consuming `execCommit`) and surface its error *before* the load reply's
rpc-errors are inspected. -/
def loadConfigRun (readFile : Str → Except Err Str)
    (pc : Str → Except Err CommitResults) (path : Str) (format : Fmt)
    (commitFlag : Bool) (execLoad execCommit : Except Err NetconfReply) :
    Option Err :=
  match loadConfigCommand readFile path format with
  | .error e => some e
  | .ok _ =>
    match execLoad with
    | .error e => some e
    | .ok reply =>
      if commitFlag then
        match commitFromExec pc execCommit with
        | some e => some e
        | none => firstErrOpt reply
      else firstErrOpt reply

/-- The sequential variant the spec compares against: `LoadConfig(..., false)`
and, when that call returned no error, `Commit()` over the same device
interaction. -/
def loadThenCommitRun (readFile : Str → Except Err Str)
    (pc : Str → Except Err CommitResults) (path : Str) (format : Fmt)
    (execLoad execCommit : Except Err NetconfReply) : Option Err :=
  match loadConfigRun readFile pc path format false execLoad execCommit with
  | some e => some e
  | none => commitFromExec pc execCommit

/-! ### View "staticnat" (views.go lines 789-824) -/

/-- Decode target `StaticNatEntry` (all fields Go zero-values when the
element is absent). -/
structure StaticNatEntry where
  Name : Str := []
  SetName : Str := []
  ID : Str := []
  RuleMatchingPosition : Int := 0
  FromContext : Str := []
  FromZone : Str := []
  SourceAddressLowRange : Str := []
  SourceAddressHighRange : Str := []
  DestinaionAddressPrefix : Str := []
  DestinationPortLow : Int := 0
  DestinationPortHigh : Int := 0
  HostAddressPrefix : Str := []
  HostPortLow : Int := 0
  HostPortHigh : Int := 0
  Netmask : Str := []
  RoutingInstance : Str := []
  TranslationHits : Int := 0
  SuccessfulSessions : Int := 0
  ConcurrentHits : Int := 0
  deriving DecidableEq, Repr

/-- The zero-valued `var staticnatentry StaticNatEntry`. -/
def emptyStaticNatEntry : StaticNatEntry := {}

/-- Decode target `StaticNats` (`Count` carries no xml tag, so unmarshalling
leaves it at the Go zero value 0). -/
structure StaticNats where
  Count : Int
  Entries : List StaticNatEntry
  deriving DecidableEq, Repr

/-- Decode target `srxStaticNats` (clustered-SRX shape). -/
structure SrxStaticNats where
  Entries : List StaticNatEntry
  deriving DecidableEq, Repr

/-- `strings.Replace(reply.Data, "\n", "", -1)`. -/
def stripNewlines (s : Str) : Str := s.filter (· ≠ '\n')

/-- The "staticnat" case of View's decode switch: on the clustered shape,
keep the first half of the entries and set Count to that half; on the
single-chassis shape, set Count to the parsed entry count and append one
zero-valued entry.  `pM`/`pS` are the `xml.Unmarshal` oracles for the two
shapes. -/
def viewStaticNat (pS : Str → Except Err StaticNats)
    (pM : Str → Except Err SrxStaticNats) (data : Str) :
    Except Err StaticNats :=
  let formatted := stripNewlines data
  if hasSub markerStr data then
    match pM formatted with
    | .error e => .error e
    | .ok srx =>
      let actualrules := srx.Entries.length / 2
      .ok { Count := actualrules, Entries := srx.Entries.take actualrules }
  else
    match pS formatted with
    | .error e => .error e
    | .ok staticnats =>
      let actualrules := staticnats.Entries.length
      .ok { Count := actualrules,
            Entries := staticnats.Entries ++ [emptyStaticNatEntry] }

/-- View("staticnat") including the shared pre-decode checks (first
rpc-error, then the empty-data guard). -/
def viewStaticNatRun (pS : Str → Except Err StaticNats)
    (pM : Str → Except Err SrxStaticNats)
    (execRes : Except Err NetconfReply) : Except Err StaticNats :=
  match execRes with
  | .error e => .error e
  | .ok reply =>
    match reply.Errors with
    | m :: _ => .error (.goError m.Message)
    | [] =>
      if reply.Data = [] then
        .error (.goError
          "no output available - please check the syntax of your command".toList)
      else viewStaticNat pS pM reply.Data

/-- Boolean form of "the string contains a `'['` later followed by a
`']'`", the match condition of the version-extraction pattern. -/
def hasOpenClose : Str → Bool
  | [] => false
  | c :: rest => (c = '[' && rest.contains ']') || hasOpenClose rest

/-! ### Concrete fixtures for the witness instantiations -/

/-- Fixture: a software-information block as the multi-engine schema
decodes it. -/
def wBlock (host : String) : VersionRouteEngine :=
  ⟨host.toList, "srx240".toList, [⟨[], ["x [1.0]".toList]⟩]⟩

/-- Fixture: a two-block multi-engine decode result. -/
def wFactsM : VersionRouteEngines := ⟨[wBlock "srx0", wBlock "srx1"]⟩

/-- Fixture: a single-engine decode result. -/
def wSingle : VersionRouteEngine :=
  ⟨"mx0".toList, "mx480".toList, [⟨[], ["x [2.0]".toList]⟩]⟩

/-! ### Helper lemmas on the extraction scanners -/

theorem beforeLastClose_eq_none {t : Str} (ht : ']' ∉ t) :
    beforeLastClose t = none := by
  induction t with
  | nil => rfl
  | cons c rest ih =>
    have hc : c ≠ ']' := fun h => ht (h ▸ List.mem_cons_self c rest)
    have hrest : ']' ∉ rest := fun h => ht (List.mem_cons_of_mem c h)
    simp [beforeLastClose, ih hrest, hc]

theorem afterLastOpen_eq_none {t : Str} (ht : '[' ∉ t) :
    afterLastOpen t = none := by
  induction t with
  | nil => rfl
  | cons c rest ih =>
    have hc : c ≠ '[' := fun h => ht (h ▸ List.mem_cons_self c rest)
    have hrest : '[' ∉ rest := fun h => ht (List.mem_cons_of_mem c h)
    simp [afterLastOpen, ih hrest, hc]

theorem beforeLastClose_append {t : Str} (a : Str) (ht : ']' ∉ t) :
    beforeLastClose (a ++ ']' :: t) = some a := by
  induction a with
  | nil => simp [beforeLastClose, beforeLastClose_eq_none ht]
  | cons c rest ih => simp [beforeLastClose, ih]

theorem afterLastOpen_append {v : Str} (p : Str) (hv : '[' ∉ v) :
    afterLastOpen (p ++ '[' :: v) = some v := by
  induction p with
  | nil => simp [afterLastOpen, afterLastOpen_eq_none hv]
  | cons c rest ih => simp [afterLastOpen, ih]

theorem beforeLastClose_eq_some {l r : Str} (h : beforeLastClose l = some r) :
    ∃ t, l = r ++ ']' :: t := by
  induction l generalizing r with
  | nil => simp [beforeLastClose] at h
  | cons c rest ih =>
    rw [beforeLastClose] at h
    cases hrest : beforeLastClose rest with
    | some r' =>
      rw [hrest] at h
      obtain ⟨t, ht⟩ := ih hrest
      cases h
      exact ⟨t, by simp [ht]⟩
    | none =>
      rw [hrest] at h
      by_cases hc : c = ']'
      · simp [hc] at h
        exact ⟨rest, by simp [hc, ← h]⟩
      · simp [hc] at h

theorem afterLastOpen_eq_some {l v : Str} (h : afterLastOpen l = some v) :
    ∃ p, l = p ++ '[' :: v := by
  induction l generalizing v with
  | nil => simp [afterLastOpen] at h
  | cons c rest ih =>
    rw [afterLastOpen] at h
    cases hrest : afterLastOpen rest with
    | some r' =>
      rw [hrest] at h
      cases h
      obtain ⟨p, hp⟩ := ih hrest
      exact ⟨c :: p, by simp [hp]⟩
    | none =>
      rw [hrest] at h
      by_cases hc : c = '[' <;> simp [hc] at h
      exact ⟨[], by simp [hc, h]⟩

theorem takeWhile_no_newline {s : Str} (hs : '\n' ∉ s) :
    s.takeWhile (· ≠ '\n') = s := by
  induction s with
  | nil => rfl
  | cons c rest ih =>
    have hc : c ≠ '\n' := fun h => hs (h ▸ List.mem_cons_self c rest)
    have hrest : '\n' ∉ rest := fun h => hs (List.mem_cons_of_mem c h)
    simp [List.takeWhile_cons, hc, ih hrest]
    exact fun x hx h => hrest (h ▸ hx)

theorem hasOpenClose_decomp (l1 l2 l3 : Str) :
    hasOpenClose (l1 ++ '[' :: l2 ++ ']' :: l3) = true := by
  induction l1 with
  | nil => simp [hasOpenClose]
  | cons c rest ih =>
    simp [hasOpenClose]
    right
    simpa using ih

/-- C2: a package-comment string carrying a bracketed version token yields
exactly the text inside the brackets as the extracted version, and a string
with no `'['`-then-`']'` pattern makes the extraction fail (the regex finds
no match, so `FindStringSubmatch` returns nil). -/
theorem c2_version_extraction :
    (∀ a v b : Str, '\n' ∉ a → '\n' ∉ v → '\n' ∉ b → '[' ∉ v → ']' ∉ b →
        reFindVersion (a ++ '[' :: v ++ ']' :: b) = some v)
    ∧ ∀ s : Str, hasOpenClose s = false → reFindVersion s = none := by
  constructor
  · intro a v b ha hv hb hvo hbc
    have hnl : '\n' ∉ a ++ '[' :: v ++ ']' :: b := by
      intro h
      rcases List.mem_append.1 h with h1 | h1
      · rcases List.mem_append.1 h1 with h2 | h2
        · exact ha h2
        · rcases List.mem_cons.1 h2 with h3 | h3
          · exact absurd h3 (by decide)
          · exact hv h3
      · rcases List.mem_cons.1 h1 with h3 | h3
        · exact absurd h3 (by decide)
        · exact hb h3
    rw [reFindVersion, takeWhile_no_newline hnl]
    have h1 : beforeLastClose (a ++ '[' :: v ++ ']' :: b) = some (a ++ '[' :: v) := by
      have := beforeLastClose_append (t := b) (a ++ '[' :: v) hbc
      simpa using this
    rw [h1]
    simpa using afterLastOpen_append a hvo
  · intro s h
    cases hr : reFindVersion s with
    | none => rfl
    | some v =>
      exfalso
      rw [reFindVersion] at hr
      rcases Option.bind_eq_some.1 hr with ⟨r, h1, h2⟩
      obtain ⟨t2, ht⟩ := beforeLastClose_eq_some h1
      obtain ⟨p, hp⟩ := afterLastOpen_eq_some h2
      have hs : s.takeWhile (· ≠ '\n') ++ s.dropWhile (· ≠ '\n') = s :=
        List.takeWhile_append_dropWhile _ s
      rw [ht, hp] at hs
      have htrue : hasOpenClose s = true := by
        rw [← hs]
        have := hasOpenClose_decomp p v (t2 ++ s.dropWhile (· ≠ '\n'))
        simpa using this
      rw [htrue] at h
      cases h

/-- C2 witness: the canonical software comment extracts its bracketed
version, and a bracket-free string extracts nothing. -/
theorem c2_version_extraction_witness :
    reFindVersion ("JUNOS Software Release ".toList ++ '[' ::
        "12.1X47-D10.4".toList ++ ']' :: []) = some "12.1X47-D10.4".toList
    ∧ reFindVersion "JUNOS Software Release 12.1".toList = none :=
  ⟨c2_version_extraction.1 "JUNOS Software Release ".toList
      "12.1X47-D10.4".toList [] (by decide) (by decide) (by decide)
      (by decide) (by decide),
   c2_version_extraction.2 "JUNOS Software Release 12.1".toList (by decide)⟩

/-- A successful loop over the routing-engine blocks yields exactly one
fact per block. -/
theorem mapExc_length {α β : Type} {f : α → Except Err β} {l : List α}
    {res : List β} (h : mapExc f l = .ok res) : res.length = l.length := by
  induction l generalizing res with
  | nil =>
    simp [mapExc] at h
    simp [← h]
  | cons a l ih =>
    rw [mapExc] at h
    cases hf : f a with
    | error e => rw [hf] at h; cases h
    | ok b =>
      rw [hf] at h
      cases hm : mapExc f l with
      | error e => rw [hm] at h; cases h
      | ok bs =>
        rw [hm] at h
        cases h
        simp [ih hm]

/-- C1: with the marker present, NewSession decodes via the multi-engine
schema and returns one fact per block, the block count as the
routing-engine count and the first block's hostname; with the marker
absent, it decodes via the single-engine schema and returns exactly one
fact with routing-engine count 1. -/
theorem c1_newsession_shape :
    (∀ (pm : Str → Except Err VersionRouteEngines)
        (ps : Str → Except Err VersionRouteEngine) (reply : NetconfReply)
        (facts : VersionRouteEngines) (first : VersionRouteEngine)
        (rest : List VersionRouteEngine) (res : List RoutingEngine),
      reply.Errors = [] → hasSub markerStr reply.Data = true →
      pm reply.Data = .ok facts → facts.RE = first :: rest →
      mapExc buildRE facts.RE = .ok res →
      newSessionFromReply pm ps reply =
        .ok { Hostname := first.Hostname, RouteEngines := facts.RE.length,
              Platform := res }
      ∧ res.length = facts.RE.length)
    ∧ ∀ (pm : Str → Except Err VersionRouteEngines)
        (ps : Str → Except Err VersionRouteEngine) (reply : NetconfReply)
        (sfacts : VersionRouteEngine) (re : RoutingEngine),
      reply.Errors = [] → hasSub markerStr reply.Data = false →
      ps reply.Data = .ok sfacts → buildRE sfacts = .ok re →
      newSessionFromReply pm ps reply =
        .ok { Hostname := sfacts.Hostname, RouteEngines := 1, Platform := [re] } := by
  constructor
  · intro pm ps reply facts first rest res herr hmark hpm hre hmap
    have hmap' : mapExc buildRE (first :: rest) = .ok res := hre ▸ hmap
    refine ⟨?_, mapExc_length hmap⟩
    simp [newSessionFromReply, herr, hmark, hpm, hre, hmap']
  · intro pm ps reply sfacts re herr hmark hps hb
    simp [newSessionFromReply, herr, hmark, hps, hb]

/-- C1 witness: a concrete two-block multi-engine reply yields two facts
with the first block's hostname, and a concrete single-engine reply yields
one fact. -/
theorem c1_newsession_shape_witness :
    newSessionFromReply (fun _ => .ok wFactsM) (fun _ => .error .crash)
        ⟨[], "multi-routing-engine-results".toList⟩ =
      .ok { Hostname := "srx0".toList, RouteEngines := 2,
            Platform := [⟨"SRX240".toList, "1.0".toList⟩,
                         ⟨"SRX240".toList, "1.0".toList⟩] }
    ∧ newSessionFromReply (fun _ => .error .crash) (fun _ => .ok wSingle)
        ⟨[], "<software-information/>".toList⟩ =
      .ok { Hostname := "mx0".toList, RouteEngines := 1,
            Platform := [⟨"MX480".toList, "2.0".toList⟩] } := by
  constructor
  · exact (c1_newsession_shape.1 (fun _ => .ok wFactsM) (fun _ => .error .crash)
      ⟨[], "multi-routing-engine-results".toList⟩ wFactsM (wBlock "srx0")
      [wBlock "srx1"]
      [⟨"SRX240".toList, "1.0".toList⟩, ⟨"SRX240".toList, "1.0".toList⟩]
      rfl (by decide) rfl (by decide) rfl).1
  · exact c1_newsession_shape.2 (fun _ => .error .crash) (fun _ => .ok wSingle)
      ⟨[], "<software-information/>".toList⟩ wSingle
      ⟨"MX480".toList, "2.0".toList⟩ rfl (by decide) rfl rfl

/-- C5: a reply whose multi-engine decode yields zero routing-engine blocks
makes NewSession fail (the `facts.RE[0]` access panics, modelled as
`Err.crash`), and no successfully established session ever carries zero
routing engines or an empty fact list. -/
theorem c5_no_zero_re_session :
    (∀ (pm : Str → Except Err VersionRouteEngines)
        (ps : Str → Except Err VersionRouteEngine) (reply : NetconfReply)
        (facts : VersionRouteEngines),
      reply.Errors = [] → hasSub markerStr reply.Data = true →
      pm reply.Data = .ok facts → facts.RE = [] →
      newSessionFromReply pm ps reply = .error .crash)
    ∧ ∀ (pm : Str → Except Err VersionRouteEngines)
        (ps : Str → Except Err VersionRouteEngine)
        (execRes : Except Err NetconfReply) (j : Junos),
      newSessionRun pm ps execRes = .ok j →
      1 ≤ j.RouteEngines ∧ j.Platform ≠ [] := by
  constructor
  · intro pm ps reply facts herr hmark hpm hre
    simp [newSessionFromReply, herr, hmark, hpm, hre]
  · intro pm ps execRes j h
    cases execRes with
    | error e => simp [newSessionRun] at h
    | ok reply =>
      replace h : newSessionFromReply pm ps reply = .ok j := h
      cases hE : reply.Errors with
      | cons m ms => simp [newSessionFromReply, hE] at h
      | nil =>
        cases hm : hasSub markerStr reply.Data with
        | false =>
          cases hps : ps reply.Data with
          | error e => simp [newSessionFromReply, hE, hm, hps] at h
          | ok sfacts =>
            cases hb : buildRE sfacts with
            | error e => simp [newSessionFromReply, hE, hm, hps, hb] at h
            | ok re =>
              have heval : newSessionFromReply pm ps reply =
                  .ok { Hostname := sfacts.Hostname, RouteEngines := 1,
                        Platform := [re] } := by
                simp [newSessionFromReply, hE, hm, hps, hb]
              rw [heval] at h
              simp only [Except.ok.injEq] at h
              rw [← h]
              exact ⟨le_refl 1, by simp⟩
        | true =>
          cases hpm : pm reply.Data with
          | error e => simp [newSessionFromReply, hE, hm, hpm] at h
          | ok facts =>
            cases hre : facts.RE with
            | nil => simp [newSessionFromReply, hE, hm, hpm, hre] at h
            | cons first rest =>
              cases hmap : mapExc buildRE facts.RE with
              | error e =>
                have hmap' : mapExc buildRE (first :: rest) = .error e :=
                  hre ▸ hmap
                simp [newSessionFromReply, hE, hm, hpm, hre, hmap'] at h
              | ok res =>
                have hmap' : mapExc buildRE (first :: rest) = .ok res :=
                  hre ▸ hmap
                have heval : newSessionFromReply pm ps reply =
                    .ok { Hostname := first.Hostname,
                          RouteEngines := (first :: rest).length,
                          Platform := res } := by
                  simp [newSessionFromReply, hE, hm, hpm, hre, hmap']
                rw [heval] at h
                simp only [Except.ok.injEq] at h
                rw [← h]
                constructor
                · simp
                · have hlen := mapExc_length hmap'
                  simp only [List.length_cons] at hlen
                  intro hnil
                  have hres : res = [] := hnil
                  rw [hres] at hlen
                  simp at hlen

/-- C5 witness: a marker-bearing reply whose decode has zero blocks yields
the crash error, and a concrete established session has at least one
routing engine. -/
theorem c5_no_zero_re_session_witness :
    newSessionFromReply (fun _ => .ok ⟨[]⟩) (fun _ => .error .crash)
        ⟨[], "multi-routing-engine-results".toList⟩ = .error .crash
    ∧ (1 ≤ (1 : Nat)
        ∧ ([⟨"MX480".toList, "2.0".toList⟩] : List RoutingEngine) ≠ []) := by
  constructor
  · exact c5_no_zero_re_session.1 (fun _ => .ok ⟨[]⟩) (fun _ => .error .crash)
      ⟨[], "multi-routing-engine-results".toList⟩ ⟨[]⟩ rfl (by decide) rfl rfl
  · exact c5_no_zero_re_session.2 (fun _ => .error .crash)
      (fun _ => .ok wSingle) (.ok ⟨[], "<software-information/>".toList⟩)
      { Hostname := "mx0".toList, RouteEngines := 1,
        Platform := [⟨"MX480".toList, "2.0".toList⟩] } rfl

/-- C8: an error-free reply whose body unwraps to the empty string makes
Command return the fixed no-output message together with a nil error — a
soft result, not a hard failure. -/
theorem c8_command_soft_no_output :
    ∀ (unwrap : Str → Except Err Str) (cmd format : Str)
      (reply : NetconfReply),
      reply.Errors = [] → unwrap reply.Data = .ok [] →
      CommandRun unwrap cmd format (.ok reply) = (errMessage, none) := by
  intro unwrap cmd format reply herr hun
  simp [CommandRun, herr, hun]

/-- C8 witness: `Command("show version", "text")` over an empty-body
fixture. -/
theorem c8_command_soft_no_output_witness :
    CommandRun (fun _ => .ok []) "show version".toList "text".toList
      (.ok ⟨[], "<output></output>".toList⟩) = (errMessage, none) :=
  c8_command_soft_no_output (fun _ => .ok []) "show version".toList
    "text".toList ⟨[], "<output></output>".toList⟩ rfl rfl

/-- C10: in the single-chassis branch of View("staticnat"), the Count field
becomes the parsed entry count and one zero-valued entry is appended, so
the returned list has Count+1 elements and ends with an empty entry. -/
theorem c10_staticnat_single_appends_empty :
    ∀ (pS : Str → Except Err StaticNats) (pM : Str → Except Err SrxStaticNats)
      (data : Str) (sn out : StaticNats),
      hasSub markerStr data = false →
      pS (stripNewlines data) = .ok sn →
      viewStaticNat pS pM data = .ok out →
      out.Count = (sn.Entries.length : Int) ∧
      out.Entries.length = sn.Entries.length + 1 ∧
      out.Entries.getLast? = some emptyStaticNatEntry := by
  intro pS pM data sn out hm hp h
  have heval : viewStaticNat pS pM data =
      .ok { Count := sn.Entries.length,
            Entries := sn.Entries ++ [emptyStaticNatEntry] } := by
    simp [viewStaticNat, hm, hp]
  rw [heval] at h
  simp only [Except.ok.injEq] at h
  rw [← h]
  exact ⟨rfl, by simp, by simp⟩

/-- C10 witness: a one-entry single-chassis decode yields Count 1 and two
entries, the last one empty. -/
theorem c10_staticnat_single_appends_empty_witness :
    ({ Count := 1, Entries := [{ Name := "r1".toList }, emptyStaticNatEntry] }
        : StaticNats).Count =
      (([{ Name := "r1".toList }] : List StaticNatEntry).length : Int)
    ∧ ([{ Name := "r1".toList }, emptyStaticNatEntry]
        : List StaticNatEntry).length =
      ([{ Name := "r1".toList }] : List StaticNatEntry).length + 1
    ∧ ([{ Name := "r1".toList }, emptyStaticNatEntry]
        : List StaticNatEntry).getLast? = some emptyStaticNatEntry :=
  c10_staticnat_single_appends_empty
    (fun _ => .ok { Count := 0, Entries := [{ Name := "r1".toList }] })
    (fun _ => .error .crash) "<static-nat-rule-information/>".toList
    { Count := 0, Entries := [{ Name := "r1".toList }] }
    { Count := 1, Entries := [{ Name := "r1".toList }, emptyStaticNatEntry] }
    (by decide) rfl rfl

/-- C9: when a reply carries a non-empty rpc-error list, every operation
surfaces an error built from the first entry's message alone (the result is
the same for every tail `ms`, so later entries never contribute); the
commit family's second stage — the rpc-errors inside `commit-results` —
likewise formats only the first entry. -/
theorem c9_first_error_only :
    (∀ (pc : Str → Except Err CommitResults) (pd : Str → Except Err DiffXML)
      (unwrap : Str → Except Err Str) (pS : Str → Except Err StaticNats)
      (pM : Str → Except Err SrxStaticNats) (reply : NetconfReply)
      (m : RPCError) (ms : List RPCError) (t action cmd format : Str)
      (d n : Int),
      reply.Errors = m :: ms →
      (LockRun (.ok reply)).2 = some (.goError m.Message)
      ∧ (UnlockRun (.ok reply)).2 = some (.goError m.Message)
      ∧ (RescueRun action (.ok reply)).2 = some (.goError m.Message)
      ∧ (CommitRun pc (.ok reply)).2 = some (.goError m.Message)
      ∧ (CommitAtRun pc t (.ok reply)).2 = some (.goError m.Message)
      ∧ (CommitCheckRun pc (.ok reply)).2 = some (.goError m.Message)
      ∧ (CommitConfirmRun pc d (.ok reply)).2 = some (.goError m.Message)
      ∧ (ConfigDiffRun pd n (.ok reply)).2 = .error (.goError m.Message)
      ∧ CommandRun unwrap cmd format (.ok reply) =
          (errMessage, some (.goError m.Message))
      ∧ viewStaticNatRun pS pM (.ok reply) = .error (.goError m.Message))
    ∧ ∀ (pc : Str → Except Err CommitResults) (reply : NetconfReply)
      (m2 : CommitError) (ms2 : List CommitError),
      reply.Errors = [] → pc reply.Data = .ok ⟨m2 :: ms2⟩ →
      (CommitRun pc (.ok reply)).2 = some (.goError (commitErrMessage m2)) := by
  constructor
  · intro pc pd unwrap pS pM reply m ms t action cmd format d n herr
    refine ⟨?_, ?_, ?_, ?_, ?_, ?_, ?_, ?_, ?_, ?_⟩
    · simp [LockRun, simpleHandle, firstErrOpt, herr]
    · simp [UnlockRun, simpleHandle, firstErrOpt, herr]
    · simp [RescueRun, simpleHandle, firstErrOpt, herr]
    · simp [CommitRun, commitHandle, herr]
    · simp [CommitAtRun, commitHandle, herr]
    · simp [CommitCheckRun, commitHandle, herr]
    · simp [CommitConfirmRun, commitHandle, herr]
    · simp [ConfigDiffRun, herr]
    · simp [CommandRun, herr]
    · simp [viewStaticNatRun, herr]
  · intro pc reply m2 ms2 herr hpc
    simp [CommitRun, commitHandle, herr, hpc]

/-- C9 witness: a reply with two rpc-errors surfaces only the first entry's
message across the operations. -/
theorem c9_first_error_only_witness :
    (LockRun (.ok ⟨[⟨"first error".toList⟩, ⟨"second error".toList⟩],
        "x".toList⟩)).2 = some (.goError "first error".toList)
    ∧ (UnlockRun (.ok ⟨[⟨"first error".toList⟩, ⟨"second error".toList⟩],
        "x".toList⟩)).2 = some (.goError "first error".toList)
    ∧ (RescueRun "save".toList (.ok ⟨[⟨"first error".toList⟩,
        ⟨"second error".toList⟩], "x".toList⟩)).2 =
        some (.goError "first error".toList)
    ∧ (CommitRun (fun _ => .ok ⟨[]⟩) (.ok ⟨[⟨"first error".toList⟩,
        ⟨"second error".toList⟩], "x".toList⟩)).2 =
        some (.goError "first error".toList)
    ∧ (CommitAtRun (fun _ => .ok ⟨[]⟩) "12:00:00".toList
        (.ok ⟨[⟨"first error".toList⟩, ⟨"second error".toList⟩],
          "x".toList⟩)).2 = some (.goError "first error".toList)
    ∧ (CommitCheckRun (fun _ => .ok ⟨[]⟩) (.ok ⟨[⟨"first error".toList⟩,
        ⟨"second error".toList⟩], "x".toList⟩)).2 =
        some (.goError "first error".toList)
    ∧ (CommitConfirmRun (fun _ => .ok ⟨[]⟩) 15
        (.ok ⟨[⟨"first error".toList⟩, ⟨"second error".toList⟩],
          "x".toList⟩)).2 = some (.goError "first error".toList)
    ∧ (ConfigDiffRun (fun _ => .ok ⟨[]⟩) 1 (.ok ⟨[⟨"first error".toList⟩,
        ⟨"second error".toList⟩], "x".toList⟩)).2 =
        .error (.goError "first error".toList)
    ∧ CommandRun (fun _ => .ok "out".toList) "show version".toList
        "text".toList (.ok ⟨[⟨"first error".toList⟩,
          ⟨"second error".toList⟩], "x".toList⟩) =
        (errMessage, some (.goError "first error".toList))
    ∧ viewStaticNatRun (fun _ => .ok ⟨0, []⟩) (fun _ => .ok ⟨[]⟩)
        (.ok ⟨[⟨"first error".toList⟩, ⟨"second error".toList⟩],
          "x".toList⟩) = .error (.goError "first error".toList)
    ∧ (CommitRun
        (fun _ => .ok ⟨[⟨"p1".toList, "e1".toList, "m1".toList⟩,
          ⟨"p2".toList, "e2".toList, "m2".toList⟩]⟩)
        (.ok ⟨[], "<commit-results/>".toList⟩)).2 =
      some (.goError
        (commitErrMessage ⟨"p1".toList, "e1".toList, "m1".toList⟩)) := by
  obtain ⟨h1, h2, h3, h4, h5, h6, h7, h8, h9, h10⟩ :=
    c9_first_error_only.1 (fun _ => .ok ⟨[]⟩) (fun _ => .ok ⟨[]⟩)
      (fun _ => .ok "out".toList) (fun _ => .ok ⟨0, []⟩) (fun _ => .ok ⟨[]⟩)
      ⟨[⟨"first error".toList⟩, ⟨"second error".toList⟩], "x".toList⟩
      ⟨"first error".toList⟩ [⟨"second error".toList⟩] "12:00:00".toList
      "save".toList "show version".toList "text".toList 15 1 rfl
  exact ⟨h1, h2, h3, h4, h5, h6, h7, h8, h9, h10,
    c9_first_error_only.2
      (fun _ => .ok ⟨[⟨"p1".toList, "e1".toList, "m1".toList⟩,
        ⟨"p2".toList, "e2".toList, "m2".toList⟩]⟩)
      ⟨[], "<commit-results/>".toList⟩
      ⟨"p1".toList, "e1".toList, "m1".toList⟩
      [⟨"p2".toList, "e2".toList, "m2".toList⟩] rfl rfl⟩

/-- C4 counterexample: for the unrecognized action "bogus" Rescue issues
the save-rescue RPC to the device and returns a nil error — it is not
rejected with an InvalidArgument error before any RPC is sent. -/
theorem c4_rescue_counterexample :
    (RescueRun "bogus".toList (.ok ⟨[], "<ok/>".toList⟩)).1 = rpcRescueSave
    ∧ (RescueRun "bogus".toList (.ok ⟨[], "<ok/>".toList⟩)).2 = none :=
  ⟨rfl, rfl⟩

/-- C4 amended: every action other than "delete" — valid or not — is
treated as "save": the save-rescue RPC is issued and the result is just the
reply's first rpc-error (or success); no argument validation happens. -/
theorem c4_rescue_amended :
    ∀ (action : Str) (execRes : Except Err NetconfReply),
      action ≠ "delete".toList →
      RescueRun action execRes = (rpcRescueSave, simpleHandle execRes) := by
  intro action execRes h
  rw [RescueRun, rescueCommand, if_neg h]

/-- C4 witness: the amended behaviour at the concrete action "bogus". -/
theorem c4_rescue_amended_witness :
    RescueRun "bogus".toList (.ok ⟨[], "<ok/>".toList⟩) =
      (rpcRescueSave, simpleHandle (.ok ⟨[], "<ok/>".toList⟩)) :=
  c4_rescue_amended "bogus".toList (.ok ⟨[], "<ok/>".toList⟩) (by decide)

/-- C7 counterexample: with a reply whose configuration-output payload is
empty, ConfigDiff succeeds with the empty string — it does not fail with a
not-found error for an empty/too-short payload. -/
theorem c7_configdiff_counterexample :
    (ConfigDiffRun (fun _ => .ok ⟨[]⟩) 3
      (.ok ⟨[], "<rollback-information/>".toList⟩)).2 = .ok [] :=
  rfl

/-- C7 amended: for an error-free reply ConfigDiff returns the unmarshalled
configuration-output payload unchanged and successfully, whatever its
length; there is no minimum-length or emptiness check. -/
theorem c7_configdiff_amended :
    ∀ (pd : Str → Except Err DiffXML) (n : Int) (reply : NetconfReply)
      (rb : DiffXML),
      reply.Errors = [] → pd reply.Data = .ok rb →
      (ConfigDiffRun pd n (.ok reply)).2 = .ok rb.Config := by
  intro pd n reply rb herr hpd
  simp [ConfigDiffRun, herr, hpd]

/-- C7 witness: the amended behaviour at the concrete empty payload. -/
theorem c7_configdiff_amended_witness :
    (ConfigDiffRun (fun _ => .ok ⟨[]⟩) 3
      (.ok ⟨[], "<rollback-information/>".toList⟩)).2 = .ok ([] : Str) :=
  c7_configdiff_amended (fun _ => .ok ⟨[]⟩) 3
    ⟨[], "<rollback-information/>".toList⟩ ⟨[]⟩ rfl rfl

/-- C3 counterexample: when the load reply carries an rpc-error and the
in-line Commit also fails, `LoadConfig(..., true)` surfaces the commit
error while `LoadConfig(..., false)` followed by `Commit()` surfaces the
load error — the two variants are not observably equivalent and the load
error is not surfaced by the commit=true variant. -/
theorem c3_load_commit_counterexample :
    loadConfigRun (fun _ => .ok "set system host-name x".toList)
        (fun _ => .ok ⟨[]⟩) "conf.set".toList .set true
        (.ok ⟨[⟨"load failed".toList⟩], []⟩)
        (.ok ⟨[⟨"commit failed".toList⟩], []⟩)
      = some (.goError "commit failed".toList)
    ∧ loadThenCommitRun (fun _ => .ok "set system host-name x".toList)
        (fun _ => .ok ⟨[]⟩) "conf.set".toList .set
        (.ok ⟨[⟨"load failed".toList⟩], []⟩)
        (.ok ⟨[⟨"commit failed".toList⟩], []⟩)
      = some (.goError "load failed".toList) :=
  ⟨rfl, rfl⟩

/-- C3 amended: the two variants agree whenever the in-line commit step
succeeds or the load reply carries no rpc-errors; the divergence is
confined to the double-failure case, where commit=true surfaces the commit
error instead of the load error (the source checks the commit result before
the load reply's errors). -/
theorem c3_load_commit_amended :
    ∀ (readFile : Str → Except Err Str)
      (pc : Str → Except Err CommitResults) (path : Str) (format : Fmt)
      (execLoad execCommit : Except Err NetconfReply),
      (commitFromExec pc execCommit = none ∨
        ∀ reply, execLoad = .ok reply → reply.Errors = []) →
      loadConfigRun readFile pc path format true execLoad execCommit =
        loadThenCommitRun readFile pc path format execLoad execCommit := by
  intro readFile pc path format execLoad execCommit hside
  cases hcmd : loadConfigCommand readFile path format with
  | error e => simp [loadConfigRun, loadThenCommitRun, hcmd]
  | ok cmd =>
    cases execLoad with
    | error e => simp [loadConfigRun, loadThenCommitRun, hcmd]
    | ok reply =>
      rcases hside with hc | hl
      · cases hfe : firstErrOpt reply <;>
          simp [loadConfigRun, loadThenCommitRun, hcmd, hc, hfe]
      · have herr : reply.Errors = [] := hl reply rfl
        have hfe : firstErrOpt reply = none := by simp [firstErrOpt, herr]
        cases hcf : commitFromExec pc execCommit <;>
          simp [loadConfigRun, loadThenCommitRun, hcmd, hfe, hcf]

/-- C3 witness: the amended equivalence at a concrete input where the load
is rejected but the commit step succeeds (both variants surface the load
error). -/
theorem c3_load_commit_amended_witness :
    loadConfigRun (fun _ => .ok "set system host-name x".toList)
        (fun _ => .ok ⟨[]⟩) "conf.set".toList .set true
        (.ok ⟨[⟨"load failed".toList⟩], []⟩) (.ok ⟨[], []⟩)
      = loadThenCommitRun (fun _ => .ok "set system host-name x".toList)
        (fun _ => .ok ⟨[]⟩) "conf.set".toList .set
        (.ok ⟨[⟨"load failed".toList⟩], []⟩) (.ok ⟨[], []⟩) :=
  c3_load_commit_amended (fun _ => .ok "set system host-name x".toList)
    (fun _ => .ok ⟨[]⟩) "conf.set".toList .set
    (.ok ⟨[⟨"load failed".toList⟩], []⟩) (.ok ⟨[], []⟩) (Or.inl rfl)

/-- C6: evaluated at the failing input — a remote URL path with no readable
local file of that name — Config renders the inline-string template
wrapping the literal URL (not the url-form template), and LoadConfig
returns the file-read error without building any command; the url-form
assignment guarded by the "tp://" check is unconditionally overwritten (or
abandoned), contradicting both the claim and the functions' own remote-URL
documentation. -/
theorem c6_url_load_eval :
    configCommandStr (fun _ => .error (.goError "no such file".toList))
        "ftp://host/conf.set".toList .set
      = subst1 rpcConfigStringSet "ftp://host/conf.set".toList
    ∧ configCommandStr (fun _ => .error (.goError "no such file".toList))
        "ftp://host/conf.set".toList .set
      ≠ subst1 rpcConfigURLSet "ftp://host/conf.set".toList
    ∧ loadConfigCommand (fun _ => .error (.goError "no such file".toList))
        "ftp://host/conf.set".toList .set
      = .error (.goError "no such file".toList)
    ∧ hasSub tpSub "ftp://host/conf.set".toList = true :=
  ⟨rfl, by decide, rfl, by decide⟩

end Junos
